import Mathlib

/-!
Verification development for the `mysql-modelify` repository.

The source under verification is `src/route-generator.js`, which contains the
Express route glue (`RouteGenerator`) and the `Model` class (entity definition
plus CRUD orchestration, raw-row mapping and relation handling).  The
collaborators `QueryBuilder`, `mysqlService`, `Relationship` and
`InvalidModelInputError` are not part of the given sources; wherever their
behaviour decides a property they are modelled from the specification and the
definition's doc comment says so.

JavaScript values are embedded by the inductive `JVal`; `undefined` and `null`
are collapsed into `JVal.jnull` (the code never distinguishes them
observably).  Mutation of the request payload is embedded by explicit state
passing: each CRUD run returns the successive states of the `data` argument.
-/

/-- Embedding of the JavaScript values the program manipulates.  `jnull`
stands for both `null` and `undefined`. -/
inductive JVal where
  | jnull
  | jbool (b : Bool)
  | jnum (n : Nat)
  | jstr (s : String)
  | jobj (fields : List (String × JVal))
  | jarr (elems : List JVal)

/-- JavaScript truthiness of an embedded value. -/
def truthy : JVal → Bool
  | .jnull => false
  | .jbool b => b
  | .jnum n => n != 0
  | .jstr s => s != ""
  | .jobj _ => true
  | .jarr _ => true

/-- `v || null`: the value itself when truthy, otherwise `null`. -/
def jsOrNull (v : JVal) : JVal :=
  if truthy v then v else .jnull

/-- `v || {}`: the value itself when truthy, otherwise an empty object. -/
def jsOrObj (v : JVal) : JVal :=
  if truthy v then v else .jobj []

/-- Property lookup on an object's binding list (JS object keys are unique;
the embedding looks up the first occurrence). -/
def lookupKey {β : Type} : List (String × β) → String → Option β
  | [], _ => none
  | (k, v) :: rest, q => if k = q then some v else lookupKey rest q

/-- Property read `o[k]` (gives `undefined`, i.e. `none`, on non-objects). -/
def objGet : JVal → String → Option JVal
  | .jobj fs, k => lookupKey fs k
  | _, _ => none

/-- Property write on a binding list: replaces the first binding of the key in
place, or appends a new binding (JS object insertion order). -/
def setKeyList {β : Type} : List (String × β) → String → β → List (String × β)
  | [], k, v => [(k, v)]
  | (k0, v0) :: rest, k, v =>
      if k0 = k then (k0, v) :: rest else (k0, v0) :: setKeyList rest k v

/-- Property write `o[k] = v` on an object; a no-op on non-objects, as in
lodash's `_.set` on a non-object target. -/
def setKeyTop : JVal → String → JVal → JVal
  | .jobj fs, k, v => .jobj (setKeyList fs k v)
  | o, _, _ => o

/-- The intermediate object `_.set` descends into for a path step: the
existing child when it is an object, otherwise a fresh empty object.
(Path segments here are always non-numeric column names, so `_.set` never
creates arrays; arrays never occur mid-path in this program.) -/
def childForPath (o : JVal) (k : String) : JVal :=
  match objGet o k with
  | some (.jobj fs) => .jobj fs
  | _ => .jobj []

/-- Helper for `jsSplit`: walks the character list, accumulating the current
segment in reverse. -/
def splitCharAux (sep : Char) : List Char → List Char → List String
  | [], cur => [String.mk cur.reverse]
  | c :: rest, cur =>
      if c = sep then String.mk cur.reverse :: splitCharAux sep rest []
      else splitCharAux sep rest (c :: cur)

/-- JavaScript `s.split(sep)` for a one-character separator (the program only
splits on `","` and `"."`).  As in JS, `"".split(",") = [""]`. -/
def jsSplit (s : String) (sep : Char) : List String :=
  splitCharAux sep s.data []

/-- lodash `_.set(o, path, v)` for an already-split dotted path. -/
def lodashSet : JVal → List String → JVal → JVal
  | o, [], _ => o
  | o, [k], v => setKeyTop o k v
  | o, k :: k2 :: rest, v => setKeyTop o k (lodashSet (childForPath o k) (k2 :: rest) v)

/-- lodash `_.without(xs, a, b)`: removes every occurrence of the listed
values. -/
def lodashWithout (xs : List String) (a b : String) : List String :=
  xs.filter (fun x => x != a && x != b)

/-- The string a non-object value contributes to `(value || "").split(",")`.
A number here would throw in JS (numbers have no `split`); it is unreachable
from `rawSQLToModel` and rendered as its decimal string. -/
def jsCoerceStr : JVal → String
  | .jstr s => s
  | .jnum n => toString n
  | _ => ""

/-- One column of `parseRelationCollection`'s `reduce` body: the
`parsedValue.forEach((entry, index) => result[index] =
_.set(result[index] || {}, key, entry || null))` loop.  The `forEach`
assigns indices `0, 1, 2, …` contiguously into the shared `result` array,
which is exactly a zip that extends the accumulator when the column has more
segments and leaves its tail untouched when it has fewer. -/
def applyColumn (key : String) : List JVal → List JVal → List JVal
  | [], res => res
  | e :: pv, [] =>
      lodashSet (jsOrObj .jnull) (jsSplit key '.') (jsOrNull e) :: applyColumn key pv []
  | e :: pv, r :: res =>
      lodashSet (jsOrObj r) (jsSplit key '.') (jsOrNull e) :: applyColumn key pv res

mutual

/-- `Model.parseRelationCollection` (source lines 317–334): un-flattens a
relation sub-object `{ "id": "1,2,3", … }` into an array of per-row objects.
Non-objects give nothing to fold over; the only array ever passed in is the
`[]` default of `rawSQLToModel`, whose `Object.entries` is empty. -/
def parseRelationCollection : JVal → List JVal
  | .jobj fs => parseEntries fs []
  | _ => []
termination_by structural v => v

/-- The `Object.entries(relationship).reduce` loop of
`parseRelationCollection`, with the `result` accumulator made explicit. -/
def parseEntries : List (String × JVal) → List JVal → List JVal
  | [], res => res
  | (key, value) :: rest, res =>
      let pv : List JVal :=
        match value with
        | .jobj fs => parseRelationCollection (.jobj fs)
        | .jarr es => parseRelationCollection (.jarr es)
        | v => (jsSplit (jsCoerceStr v) ',').map .jstr
      parseEntries rest (applyColumn key pv res)
termination_by structural l _ => l

end

/-- Read column `k` of the `i`-th row of an un-flattened relation
collection. -/
def rowGet (rows : List JVal) (i : Nat) (k : String) : Option JVal :=
  (rows.get? i).bind (objGet · k)

/-! ## Entity definitions (the `Model` class, source lines 116–179) -/

/-- One column descriptor as returned by `DESCRIBE` (spec §6): name, type,
nullability (`"YES"`/`"NO"`), key, default and extra. -/
structure ColumnSpec where
  Field : String
  Type' : String
  Null : String
  Key : String
  Default : Option String
  Extra : String
deriving DecidableEq

/-- Modelled from the spec: `mysqlService.columnIsRequired` (mysql-service.js
is not under src/).  Spec §3: `requiredFields` are the columns that are
non-nullable and have no default. -/
def columnIsRequired (c : ColumnSpec) : Bool :=
  c.Null == "NO" && c.Default == none

/-- Modelled from the spec: `mysqlService.getColumnName` projects a column
descriptor to its name. -/
def getColumnName (c : ColumnSpec) : String :=
  c.Field

/-- A relationship/attribute descriptor: the link table's name and its own
`DESCRIBE` result.  (The `Relationship` class is not under src/; the `Model`
code only reads its `tableName` and calls `validateDataForCreate`.) -/
structure RelationDef where
  tableName : String
  fields : List ColumnSpec
deriving DecidableEq

/-- The entity definition.  `name` is the singular form of `tableName`
(produced by the external `pluralize` library), `fields` the `DESCRIBE`
result, `relations` the insertion-ordered contents of the `relations` map. -/
structure ModelDef where
  name : String
  tableName : String
  fields : List ColumnSpec
  relations : List RelationDef
deriving DecidableEq

/-- Constructor line 136: `this.plainFields = fields.map(({Field}) => Field)`. -/
def ModelDef.plainFields (m : ModelDef) : List String :=
  m.fields.map (·.Field)

/-- Constructor line 138. -/
def ModelDef.hasCreatedAtTimestamp (m : ModelDef) : Bool :=
  m.plainFields.contains "created_at"

/-- Constructor line 139. -/
def ModelDef.hasUpdatedAtTimestamp (m : ModelDef) : Bool :=
  m.plainFields.contains "updated_at"

/-- Constructor lines 140–144: `_.without(fields.map(f => f.Field), "id",
"created_at")`. -/
def ModelDef.updateableFields (m : ModelDef) : List String :=
  lodashWithout (m.fields.map (·.Field)) "id" "created_at"

/-- Constructor lines 146–148:
`fields.filter(mysqlService.columnIsRequired).map(mysqlService.getColumnName)`. -/
def ModelDef.requiredFields (m : ModelDef) : List String :=
  (m.fields.filter columnIsRequired).map getColumnName

/-- `this.relations.get(name)` on the relations map. -/
def ModelDef.findRelation (m : ModelDef) (name : String) : Option RelationDef :=
  m.relations.find? (fun r => r.tableName == name)

/-! ## The Row Mapper (`Model.rawSQLToModel`, source lines 294–314) -/

/-- `model[relation.tableName] || []`. -/
def jsOrArr : Option JVal → JVal
  | some v => if truthy v then v else .jarr []
  | none => .jarr []

/-- `Model.rawSQLToModel`: folds the flattened row into a nested object
(omitting dotted keys with falsy values), then un-flattens each declared
relation's sub-object with `parseRelationCollection`. -/
def ModelDef.rawSQLToModel (m : ModelDef) (rawOutput : List (String × JVal)) : JVal :=
  let model := rawOutput.foldl
    (fun pm kv =>
      let parts := jsSplit kv.1 '.'
      let secondLevelTruthy :=
        match parts.get? 1 with
        | some s => s != ""
        | none => false
      let valueShouldBeOmitted := secondLevelTruthy && !(truthy kv.2)
      if valueShouldBeOmitted then pm else lodashSet pm parts kv.2)
    (.jobj [])
  m.relations.foldl
    (fun md rel =>
      setKeyTop md rel.tableName
        (.jarr (parseRelationCollection (jsOrArr (objGet md rel.tableName)))))
    model

/-! ## Request payloads and relation payload handling -/

/-- A table row / payload row: an object with scalar values. -/
abbrev Row := List (String × JVal)

/-- A value of a request payload: either a scalar field or a declared
relation's payload (an array of row objects). -/
inductive DVal where
  | scalar (v : JVal)
  | rows (rs : List Row)

/-- A request payload (`req.body`): key-ordered bindings. -/
abbrev Data := List (String × DVal)

/-- The rows of a relation payload value.  A scalar here would make
`relationData.map` throw a TypeError in JS; it is unreachable for well-formed
payloads and embedded as the empty row list. -/
def dvalRows : DVal → List Row
  | .rows rs => rs
  | .scalar _ => []

/-- `delete data.id` and similar: drops the (unique) binding of a key. -/
def removeKey {β : Type} (l : List (String × β)) (k : String) : List (String × β) :=
  l.filter (fun kv => kv.1 ≠ k)

/-- `Model.getValidFields` (source lines 177–179): lodash
`_.pick(data, this.updateableFields)`, which keeps the listed keys, ordered
by the path list. -/
def ModelDef.getValidFields (m : ModelDef) (data : Data) : Data :=
  m.updateableFields.filterMap (fun p => (lookupKey data p).map (fun v => (p, v)))

/-- `Model.signRelationsDataWithSeniorId` (source lines 351–361): stamps every
row of every listed relation payload with `id_<entityName> = id` (the key is a
single path segment, so `_.set` is a plain property write). -/
def ModelDef.signRelationsDataWithSeniorId (m : ModelDef)
    (data : List (String × List Row)) (id : JVal) : List (String × List Row) :=
  data.map (fun rel => (rel.1, rel.2.map (fun entry => setKeyList entry ("id_" ++ m.name) id)))

/-- `Model.getRelationsToUpdate` (source lines 336–349): keeps exactly the
payload keys that are declared relation names — undeclared keys are dropped —
and signs the kept payload rows with the given id. -/
def ModelDef.getRelationsToUpdate (m : ModelDef) (data : Data) (signingId : JVal) :
    List (String × List Row) :=
  let relationsToUpdate := data.filterMap (fun kv =>
    if (m.relations.map (·.tableName)).contains kv.1 then some (kv.1, dvalRows kv.2)
    else none)
  m.signRelationsDataWithSeniorId relationsToUpdate signingId

/-- The caller-visible effect on `data` of the in-place signing done by
`getRelationsToUpdate`/`signRelationsDataWithSeniorId` (the signed row objects
are the same objects stored in `data`). -/
def stampData (m : ModelDef) (data : Data) (id : JVal) : Data :=
  data.map (fun kv =>
    if (m.relations.map (·.tableName)).contains kv.1 then
      (kv.1, .rows ((dvalRows kv.2).map (fun entry => setKeyList entry ("id_" ++ m.name) id)))
    else kv)

/-- Modelled from the spec: `Relationship.validateDataForCreate`
(relationship.js is not under src/).  Spec §3/§7: every payload row may
contain only the link table's columns, and must contain every required
(non-nullable, no-default) column of the link table; a violation raises a
RelationValidationFailure that aborts the request. -/
def RelationDef.validateDataForCreate (rel : RelationDef) (rows : List Row) : Bool :=
  rows.all (fun row =>
    row.all (fun kv => (rel.fields.map (·.Field)).contains kv.1) &&
    (rel.fields.filter columnIsRequired).all (fun c => (row.map (·.1)).contains c.Field))

/-- The errors a CRUD method can throw. -/
inductive MErr where
  | invalidModelInput (missingFields : List String)
  | relationValidation (relationName : String)
  | relationNotFound (relationName : String)
  | execFailure
deriving DecidableEq

/-- The `relationsTo{Insert,Update}.forEach(... validateDataForCreate ...)`
loops of `create` (lines 246–254) and `update` (lines 204–206): the first
failing relation payload throws.  `inCreate` selects create's explicit
`Relation ... not found` throw; in update a missing relation would be a JS
TypeError (embedded as `execFailure`).  Both lookups always succeed because
`getRelationsToUpdate` filtered the names, so those branches are dead code. -/
def validateRelations (m : ModelDef) (inCreate : Bool) :
    List (String × List Row) → Option MErr
  | [] => none
  | (name, rows) :: rest =>
    match m.findRelation name with
    | none => some (if inCreate then .relationNotFound name else .execFailure)
    | some rel =>
        if rel.validateDataForCreate rows then validateRelations m inCreate rest
        else some (.relationValidation name)

/-! ## Statements and their execution (spec-modelled)

`QueryBuilder` and `mysqlService` are not under src/.  Statements are embedded
as abstract `Query` events (spec §4.1 describes the statement each builder
call produces), and their execution against a database state as the
spec-modelled `DB` operations below (spec §6: the execution adapter runs one
statement and returns rows or an acknowledgment). -/

/-- One executed statement, in execution order. -/
inductive Query where
  | insertQ (table : String) (fields : Data)
  | updateQ (table : String) (id : JVal) (fields : Data)
  | deleteQ (table : String) (id : JVal)
  | getQ (table : String) (id : JVal)
  | getLastQ (table : String)
  | deleteRelationQ (table : String) (seniorFk : String) (id : JVal)
  | insertRelationQ (table : String) (row : Row)

/-- Database state: the entity's own table and the link tables, keyed by
relation table name. -/
structure DB where
  main : List Row
  link : List (String × List Row)

/-- Modelled from the spec: SQL `=` comparison on id values, with MySQL's
number/string coercion (`'1' = 1` holds). -/
def idMatches : JVal → JVal → Bool
  | .jnum a, .jnum b => a == b
  | .jstr a, .jstr b => a == b
  | .jnum a, .jstr b => toString a == b
  | .jstr a, .jnum b => a == toString b
  | _, _ => false

/-- A row's `id` column (`null` when absent). -/
def rowIdVal (r : Row) : JVal :=
  (lookupKey r "id").getD .jnull

/-- A row's `id` column as a number (`0` when absent or non-numeric). -/
def rowIdNum (r : Row) : Nat :=
  match lookupKey r "id" with
  | some (.jnum n) => n
  | _ => 0

/-- Modelled from the spec: the AUTO_INCREMENT id the store assigns to the
next INSERT (spec §4.3: monotonically increasing ids). -/
def DB.nextId (db : DB) : Nat :=
  (db.main.map rowIdNum).foldl max 0 + 1

/-- Modelled from the spec: `SELECT * FROM t ORDER BY id DESC LIMIT 1`
(`Model.getLast`, source lines 189–197) returns the row with the greatest id,
or no row when the table is empty. -/
def DB.getLast (db : DB) : Option Row :=
  db.main.foldl
    (fun acc r =>
      match acc with
      | none => some r
      | some b => if rowIdNum b < rowIdNum r then some r else some b)
    none

/-- The column value an INSERT/UPDATE writes for a payload value.  A relation
payload can only reach here through the bug traced in the C3 theorems; its
SQL rendering is immaterial and embedded as an array value. -/
def dvalToJVal : DVal → JVal
  | .scalar v => v
  | .rows rs => .jarr (rs.map .jobj)

/-- Modelled from the spec: executing `buildCreate(fields)` — INSERT of the
provided field map; the store assigns the next id. -/
def DB.insertMain (db : DB) (fields : Data) : DB :=
  { db with
    main := db.main ++ [("id", .jnum db.nextId) :: fields.map (fun kv => (kv.1, dvalToJVal kv.2))] }

/-- Modelled from the spec: executing the entity DELETE of `Model.delete` —
removes the rows whose primary key equals the given id; link tables are not
touched by this statement. -/
def DB.deleteMain (db : DB) (id : JVal) : DB :=
  { db with main := db.main.filter (fun r => !idMatches (rowIdVal r) id) }

/-- Modelled from the spec: executing `buildUpdate` — writes the given fields
on the rows whose primary key equals the given id. -/
def DB.updateMain (db : DB) (id : JVal) (fields : Data) : DB :=
  { db with
    main := db.main.map (fun r =>
      if idMatches (rowIdVal r) id then
        fields.foldl (fun row kv => setKeyList row kv.1 (dvalToJVal kv.2)) r
      else r) }

/-- The rows of a link table (empty when the table is unknown). -/
def DB.linkRows (db : DB) (t : String) : List Row :=
  (lookupKey db.link t).getD []

/-- Replace a link table's rows. -/
def DB.setLink (db : DB) (t : String) (rows : List Row) : DB :=
  { db with link := setKeyList db.link t rows }

/-- Modelled from the spec: executing `buildDeleteExistingRelation(id,
relation)` — DELETE all rows of the relation's link table whose senior
foreign key equals `id` (spec §4.1). -/
def DB.deleteRelation (db : DB) (t seniorFk : String) (id : JVal) : DB :=
  db.setLink t ((db.linkRows t).filter (fun r => !idMatches ((lookupKey r seniorFk).getD .jnull) id))

/-- Modelled from the spec: executing one of the per-row INSERTs of
`buildCreateRelationEntries` (spec §4.1). -/
def DB.insertRelationRow (db : DB) (t : String) (row : Row) : DB :=
  db.setLink t (db.linkRows t ++ [row])

/-! ## CRUD runs

Each CRUD method is embedded as a function from the incoming database state
and arguments to a run record: the executed statements in order, the
resulting database state, the thrown error if any, and the final state of the
caller's (mutated) `data` object.  The un-awaited `forEach(async …)` loops
are embedded as completing in order, per spec §5's sequential per-request
model. -/

/-- `Model.assignRelationData` for a list of signed relations (create, lines
270–275): one INSERT per row per relation, in order. -/
def applyRelationInserts : DB → List (String × List Row) → List Query × DB
  | db, [] => ([], db)
  | db, (name, rows) :: rest =>
      let db1 := rows.foldl (fun d r => d.insertRelationRow name r) db
      let res := applyRelationInserts db1 rest
      (rows.map (Query.insertRelationQ name) ++ res.1, res.2)

/-- `Model.overrideExistingRelationEntries` for a list of signed relations
(update, lines 214–220): per relation, DELETE the existing link rows of the
senior id, then one INSERT per new row. -/
def applyRelationWrites (m : ModelDef) (id : JVal) : DB → List (String × List Row) → List Query × DB
  | db, [] => ([], db)
  | db, (name, rows) :: rest =>
      let seniorFk := "id_" ++ m.name
      let db1 := db.deleteRelation name seniorFk id
      let db2 := rows.foldl (fun d r => d.insertRelationRow name r) db1
      let res := applyRelationWrites m id db2 rest
      (Query.deleteRelationQ name seniorFk id :: rows.map (Query.insertRelationQ name) ++ res.1,
       res.2)

/-- Result of `Model.get`: a single (possibly missing) object when an id was
given, otherwise the full sequence. -/
inductive GetResult where
  | one (v : Option JVal)
  | many (vs : List JVal)

/-- `Model.get` (source lines 181–187), as a function of the raw rows the
execution adapter returns for the built get statement: maps each raw row
with the Row Mapper and returns `result[0]` when `id` is truthy, else
`result`.  The default argument `id = null` is `JVal.jnull`. -/
def ModelDef.get (m : ModelDef) (raws : List (List (String × JVal))) (id : JVal) : GetResult :=
  let result := raws.map m.rawSQLToModel
  if truthy id then .one result.head? else .many result

/-- Run record of `Model.delete`. -/
structure DeleteRun where
  trace : List Query
  db : DB
  result : JVal

/-- `Model.delete` (source lines 225–237): one DELETE by primary key against
the entity's own table, then the `{success: true}` acknowledgment.  No other
statement is issued (the TODO in the source notes that relation rows are not
cascaded). -/
def ModelDef.delete (m : ModelDef) (db : DB) (id : JVal) : DeleteRun :=
  { trace := [.deleteQ m.tableName id]
    db := db.deleteMain id
    result := .jobj [("success", .jbool true)] }

/-- Run record of `Model.update`. -/
structure UpdateRun where
  trace : List Query
  db : DB
  err : Option MErr
  dataFinal : Data

/-- `Model.update` (source lines 199–223).  Note that the UPDATE statement is
built from `data` (the whole payload, minus `id`, with relation rows already
signed in place) and not from the computed `fieldsToUpdate`, which only
guards whether an UPDATE is issued at all. -/
def ModelDef.update (m : ModelDef) (db0 : DB) (id : JVal) (data : Data) : UpdateRun :=
  let data1 := removeKey data "id"
  let fieldsToUpdate := m.getValidFields data1
  let relationsToUpdate := m.getRelationsToUpdate data1 id
  let dataStamped := stampData m data1 id
  match validateRelations m false relationsToUpdate with
  | some e => ⟨[], db0, some e, dataStamped⟩
  | none =>
      let own : List Query × DB :=
        if fieldsToUpdate.length > 0 then
          ([.updateQ m.tableName id dataStamped], db0.updateMain id dataStamped)
        else ([], db0)
      let rel := applyRelationWrites m id own.2 relationsToUpdate
      ⟨own.1 ++ rel.1 ++ [.getQ m.tableName id], rel.2, none, dataStamped⟩

/-- Run record of `Model.create`.  `dataAtInsert` is the state of the
caller's `data` object when the INSERT is issued (every declared relation row
already stamped with `id_<name> = null`); `seniorId` is `result.id` as
re-fetched by `getLast`. -/
structure CreateRun where
  trace : List Query
  db : DB
  err : Option MErr
  dataAtInsert : Data
  dataFinal : Data
  seniorId : JVal

/-- `Model.create` (source lines 239–277): filter to updateable fields,
compute the missing required fields, sign the declared relation payloads with
`null`, validate them (throwing on the first invalid one), throw
`InvalidModelInput` when required fields are missing, INSERT, re-fetch the
new id with `getLast`, re-sign the relation payloads with it, insert the
relation rows, and finally read the entity back. -/
def ModelDef.create (m : ModelDef) (db0 : DB) (data : Data) : CreateRun :=
  let fieldsToUpdate := m.getValidFields data
  let missingRequiredFields :=
    m.requiredFields.filter (fun f => !(fieldsToUpdate.map (·.1)).contains f)
  let relationsToInsert := m.getRelationsToUpdate data .jnull
  let dataNull := stampData m data .jnull
  match validateRelations m true relationsToInsert with
  | some e => ⟨[], db0, some e, dataNull, dataNull, .jnull⟩
  | none =>
      if missingRequiredFields.length > 0 then
        ⟨[], db0, some (.invalidModelInput missingRequiredFields), dataNull, dataNull, .jnull⟩
      else
        let db1 := db0.insertMain fieldsToUpdate
        match db1.getLast with
        | none =>
            -- unreachable: the table is nonempty right after the INSERT
            ⟨[.insertQ m.tableName fieldsToUpdate, .getLastQ m.tableName], db1,
             some .execFailure, dataNull, dataNull, .jnull⟩
        | some resultRow =>
            let rid := (lookupKey resultRow "id").getD .jnull
            let signed := m.signRelationsDataWithSeniorId relationsToInsert rid
            let dataFinal := stampData m data rid
            let rel := applyRelationInserts db1 signed
            ⟨[.insertQ m.tableName fieldsToUpdate, .getLastQ m.tableName] ++ rel.1 ++
               [.getQ m.tableName rid],
             rel.2, none, dataNull, dataFinal, rid⟩

/-! ## The route layer (`RouteGenerator`, source lines 4–106)

Each handler is embedded as a function of the outcomes of the CRUD calls it
makes (`Except.error msg` embeds a thrown error with message `msg`, caught by
the handler's try/catch). -/

/-- A response body: JSON written via `res.end`/`res.send(object)`, a plain
string via `res.send(string)`, or no body argument at all
(`res.sendStatus(code)`). -/
inductive RBody where
  | jsonV (v : JVal)
  | text (s : String)
  | statusOnly

/-- An HTTP response: status code and body. -/
structure HttpResponse where
  status : Nat
  body : RBody

/-- The body of the GET-by-id 404: `{success: false, status: "Not found"}`. -/
def notFoundBody : JVal :=
  .jobj [("success", .jbool false), ("status", .jstr "Not found")]

/-- The `GET /{tableName}` handler (source lines 21–31). -/
def getAllRoute : Except String (List JVal) → HttpResponse
  | .error msg => ⟨500, .text msg⟩
  | .ok data => ⟨200, .jsonV (.jarr data)⟩

/-- The `GET /{tableName}/:id` handler (source lines 34–48): 404 with the
not-found JSON body when the fetched entity is falsy, 500 with the raw error
message when the model threw. -/
def getByIdRoute : Except String (Option JVal) → HttpResponse
  | .error msg => ⟨500, .text msg⟩
  | .ok data =>
      if !truthy (data.getD .jnull) then ⟨404, .jsonV notFoundBody⟩
      else ⟨200, .jsonV (data.getD .jnull)⟩

/-- The `PUT /{tableName}/:id` handler (source lines 53–69): looks the entity
up first, answers `sendStatus(404)` (no body argument) when it is falsy, and
maps any error thrown by `get` or `update` to a 500 carrying the raw
message. -/
def putRoute (fetch : Except String (Option JVal)) (updateResult : Except String JVal) :
    HttpResponse :=
  match fetch with
  | .error msg => ⟨500, .text msg⟩
  | .ok target =>
      if !truthy (target.getD .jnull) then ⟨404, .statusOnly⟩
      else
        match updateResult with
        | .error msg => ⟨500, .text msg⟩
        | .ok result => ⟨200, .jsonV result⟩

/-- The `POST /{tableName}` handler (source lines 74–84). -/
def postRoute : Except String JVal → HttpResponse
  | .error msg => ⟨500, .text msg⟩
  | .ok result => ⟨200, .jsonV result⟩

/-- The `DELETE /{tableName}/:id` handler (source lines 89–104): same 404
shape as PUT. -/
def deleteRoute (fetch : Except String (Option JVal)) (deleteResult : Except String JVal) :
    HttpResponse :=
  match fetch with
  | .error msg => ⟨500, .text msg⟩
  | .ok target =>
      if !truthy (target.getD .jnull) then ⟨404, .statusOnly⟩
      else
        match deleteResult with
        | .error msg => ⟨500, .text msg⟩
        | .ok result => ⟨200, .jsonV result⟩

/-! ## Concrete example schema used by the closed theorems

A `users` table with columns `id`, `name` (required), `created_at`, and one
declared relation over the link table `user_addresses`.  The auto-increment
primary keys are given a `Default` so that the spec-modelled
`columnIsRequired` (§3: non-nullable and no default) excludes them, matching
the spec's end-to-end example (§8) where `POST {name:"Ann"}` succeeds. -/

def idCol : ColumnSpec :=
  ⟨"id", "int", "NO", "PRI", some "AUTO_INCREMENT", "auto_increment"⟩

def nameCol : ColumnSpec :=
  ⟨"name", "varchar(255)", "NO", "", none, ""⟩

def createdAtCol : ColumnSpec :=
  ⟨"created_at", "timestamp", "YES", "", some "CURRENT_TIMESTAMP", ""⟩

def addrRel : RelationDef :=
  ⟨"user_addresses",
   [⟨"id", "int", "NO", "PRI", some "AUTO_INCREMENT", "auto_increment"⟩,
    ⟨"id_user", "int", "YES", "", none, ""⟩,
    ⟨"city", "varchar(255)", "YES", "", none, ""⟩]⟩

def usersModel : ModelDef :=
  ⟨"user", "users", [idCol, nameCol, createdAtCol], [addrRel]⟩

/-- Example database: one user and one existing link row for them. -/
def dbEx : DB :=
  ⟨[[("id", .jnum 1), ("name", .jstr "Ann")]],
   [("user_addresses", [[("id", .jnum 9), ("id_user", .jnum 1), ("city", .jstr "Old")]])]⟩

/-- Example payload with one own field and one declared relation row. -/
def dataW : Data :=
  [("name", .scalar (.jstr "Bea")), ("user_addresses", .rows [[("city", .jstr "NY")]])]

/-- Payload whose relation rows fail the link table's validation while a
required own field is also missing. -/
def dataC2x : Data :=
  [("user_addresses", .rows [[("bogus", .jstr "x")]])]

/-- Update payload carrying an own field, a declared relation payload, and a
non-updateable column. -/
def dataC3 : Data :=
  [("name", .scalar (.jstr "Bea")),
   ("user_addresses", .rows [[("city", .jstr "NY")]]),
   ("created_at", .scalar (.jstr "2021-01-01"))]

/-- Payload referencing the undeclared relation name `pets`. -/
def dataC7 : Data :=
  [("name", .scalar (.jstr "Ann")), ("pets", .rows [[("x", .jstr "1")]])]

/-- Modelled from the spec: the related-row collection `get(id)` shows for
one declared relation.  `buildGet` (spec §4.1) joins the relation's link
table on the senior foreign key `id_<seniorName>` and aggregates exactly the
matching rows for the entity, so the visible collection is the link rows
whose senior foreign key equals the entity's id. -/
def getRelationView (db : DB) (m : ModelDef) (t : String) (id : JVal) : List Row :=
  (db.linkRows t).filter
    (fun r => idMatches ((lookupKey r ("id_" ++ m.name)).getD .jnull) id)

/-- Whether a value is an object. -/
def JVal.isObj : JVal → Bool
  | .jobj _ => true
  | _ => false

/-- Example entity whose single declared relation is aggregated under the
`addr.*` sub-columns of the spec's round-trip example. -/
def addrModel : ModelDef :=
  ⟨"user", "users", [idCol, nameCol], [⟨"addr", []⟩]⟩

/-! ## Shared lemmas on binding lists -/

theorem lookupKey_setKeyList {β : Type} (l : List (String × β)) (k : String) (v : β)
    (q : String) :
    lookupKey (setKeyList l k v) q = if k = q then some v else lookupKey l q := by
  induction l with
  | nil => simp [setKeyList, lookupKey]
  | cons hd tl ih =>
      obtain ⟨k0, v0⟩ := hd
      by_cases h0 : k0 = k
      · subst h0
        by_cases h : k0 = q <;> simp [setKeyList, lookupKey, h]
      · by_cases h2 : k = q
        · subst h2
          simp [setKeyList, lookupKey, h0, ih]
        · by_cases h1 : k0 = q
          · subst h1
            simp [setKeyList, lookupKey, h0, h2]
          · simp [setKeyList, lookupKey, h0, h1, h2, ih]

theorem lookupKey_eq_none_of_not_mem {β : Type} (l : List (String × β)) (q : String)
    (h : q ∉ l.map (·.1)) : lookupKey l q = none := by
  induction l with
  | nil => rfl
  | cons hd tl ih =>
      simp only [List.map_cons, List.mem_cons] at h
      push_neg at h
      simp [lookupKey, Ne.symm h.1, ih h.2]

/-! ## C5 -/

/-- C5: for every column list, `updateableFields` is exactly the column names
other than the primary key `id` and the creation timestamp `created_at`, and
`requiredFields` is exactly the names of the non-nullable, no-default
columns. -/
theorem C5_updateable_and_required_fields (m : ModelDef) :
    (∀ x, x ∈ m.updateableFields ↔
        x ∈ m.fields.map (·.Field) ∧ x ≠ "id" ∧ x ≠ "created_at") ∧
    (∀ x, x ∈ m.requiredFields ↔
        ∃ c ∈ m.fields, c.Field = x ∧ c.Null = "NO" ∧ c.Default = none) := by
  constructor
  · intro x
    simp [ModelDef.updateableFields, lodashWithout, List.mem_filter, and_assoc]
  · intro x
    simp only [ModelDef.requiredFields, getColumnName, List.mem_map, List.mem_filter,
      columnIsRequired, Bool.and_eq_true, beq_iff_eq]
    constructor
    · rintro ⟨c, ⟨hc, hnull, hdef⟩, hx⟩
      exact ⟨c, hc, hx, hnull, hdef⟩
    · rintro ⟨c, hc, hx, hnull, hdef⟩
      exact ⟨c, ⟨hc, hnull, hdef⟩, hx⟩

/-! ## C8 -/

/-- C8: `delete(id)` issues exactly one DELETE against the entity's own table
filtered on the primary key, leaves every link table unchanged (no cascade),
and returns `{success: true}`. -/
theorem C8_delete_no_cascade (m : ModelDef) (db : DB) (id : JVal) :
    (m.delete db id).trace = [.deleteQ m.tableName id] ∧
    (m.delete db id).db.link = db.link ∧
    (m.delete db id).db.main = db.main.filter (fun r => !idMatches (rowIdVal r) id) ∧
    (m.delete db id).result = .jobj [("success", .jbool true)] :=
  ⟨rfl, rfl, rfl, rfl⟩

/-! ## C9 -/

/-- C9: a missing entity gives GET-by-id a 404 with the
`{success:false, status:"Not found"}` JSON body, while PUT and DELETE answer
`sendStatus(404)` with no body argument; and every error thrown from a CRUD
method — validation failures included — surfaces as a 500 whose body is the
raw error message. -/
theorem C9_route_status_codes :
    (getByIdRoute (.ok none) = ⟨404, .jsonV notFoundBody⟩) ∧
    (∀ u, putRoute (.ok none) u = ⟨404, .statusOnly⟩) ∧
    (∀ d, deleteRoute (.ok none) d = ⟨404, .statusOnly⟩) ∧
    (∀ msg, getAllRoute (.error msg) = ⟨500, .text msg⟩) ∧
    (∀ msg, getByIdRoute (.error msg) = ⟨500, .text msg⟩) ∧
    (∀ msg, postRoute (.error msg) = ⟨500, .text msg⟩) ∧
    (∀ msg u, putRoute (.error msg) u = ⟨500, .text msg⟩) ∧
    (∀ msg d, deleteRoute (.error msg) d = ⟨500, .text msg⟩) ∧
    (∀ v msg, truthy v = true → putRoute (.ok (some v)) (.error msg) = ⟨500, .text msg⟩) ∧
    (∀ v msg, truthy v = true → deleteRoute (.ok (some v)) (.error msg) = ⟨500, .text msg⟩) := by
  refine ⟨rfl, fun u => rfl, fun d => rfl, fun msg => rfl, fun msg => rfl, fun msg => rfl,
    fun msg u => rfl, fun msg d => rfl, ?_, ?_⟩
  · intro v msg h
    simp [putRoute, h]
  · intro v msg h
    simp [deleteRoute, h]

/-- Witness for C9: the hypothesised conjuncts at a concrete truthy entity. -/
theorem C9_route_status_codes_witness :
    truthy (.jobj []) = true ∧
    putRoute (.ok (some (.jobj []))) (.error "boom") = ⟨500, .text "boom"⟩ ∧
    deleteRoute (.ok (some (.jobj []))) (.error "boom") = ⟨500, .text "boom"⟩ :=
  ⟨rfl,
   C9_route_status_codes.2.2.2.2.2.2.2.2.1 (.jobj []) "boom" rfl,
   C9_route_status_codes.2.2.2.2.2.2.2.2.2 (.jobj []) "boom" rfl⟩

/-! ## C6 -/

/-- C6 (amended): for every *truthy* id given, `get` returns a single mapped
object — the first element of the mapped sequence, `none` when the query
returned no rows — and `get` with no id (the `null` default) returns the full
mapped sequence.  (A given-but-falsy id such as `""` also returns the full
sequence, because the source branches on the truthiness of `id`; see the
counterexample.) -/
theorem C6_get_by_id (m : ModelDef) (raws : List (List (String × JVal))) :
    (∀ id : JVal, truthy id = true →
        m.get raws id = .one ((raws.map m.rawSQLToModel).head?)) ∧
    m.get raws .jnull = .many (raws.map m.rawSQLToModel) := by
  constructor
  · intro id h
    simp [ModelDef.get, h]
  · simp [ModelDef.get, truthy]

/-- C6 counterexample: the empty-string id is an id given, yet `get` returns
the full mapped sequence, not a single object, because the source tests
`id ? result[0] : result` by truthiness. -/
theorem C6_falsy_id_counterexample :
    ¬ ∃ v, usersModel.get [[("id", JVal.jnum 1), ("name", JVal.jstr "Ann")]] (.jstr "") =
      GetResult.one v := by
  rintro ⟨v, h⟩
  rw [show usersModel.get [[("id", JVal.jnum 1), ("name", JVal.jstr "Ann")]] (.jstr "") =
      GetResult.many
        [.jobj [("id", .jnum 1), ("name", .jstr "Ann"), ("user_addresses", .jarr [])]]
    from rfl] at h
  exact GetResult.noConfusion h

/-- Witness for C6 at the truthy id `"1"`. -/
theorem C6_get_by_id_witness :
    truthy (.jstr "1") = true ∧
    usersModel.get [[("id", JVal.jnum 1), ("name", JVal.jstr "Ann")]] (.jstr "1") =
      .one (([[("id", JVal.jnum 1), ("name", JVal.jstr "Ann")]].map
        usersModel.rawSQLToModel).head?) :=
  ⟨rfl, (C6_get_by_id usersModel _).1 (.jstr "1") rfl⟩

/-! ## C10 -/

/-- C10: the caller's `data` object is mutated in place: `update` deletes the
`id` key and stamps every row of every declared relation payload with
`id_<entityName> = id`; `create` first stamps those rows with `null` (the
state of `data` when the INSERT is issued) and, on success, re-stamps them
with the senior id re-fetched by `getLast`. -/
theorem C10_payload_mutation (m : ModelDef) (db : DB) (id : JVal) (data : Data) :
    (m.update db id data).dataFinal = stampData m (removeKey data "id") id ∧
    (m.create db data).dataAtInsert = stampData m data .jnull ∧
    ((m.create db data).err = none →
      (m.create db data).dataFinal = stampData m data (m.create db data).seniorId) := by
  refine ⟨?_, ?_, ?_⟩
  · cases hv : validateRelations m false
        (m.getRelationsToUpdate (removeKey data "id") id) with
    | none => simp [ModelDef.update, hv]
    | some e => simp [ModelDef.update, hv]
  · cases hv : validateRelations m true (m.getRelationsToUpdate data .jnull) with
    | none =>
        simp only [ModelDef.create, hv]
        split
        · rfl
        · split <;> rfl
    | some e => simp [ModelDef.create, hv]
  · cases hv : validateRelations m true (m.getRelationsToUpdate data .jnull) with
    | none =>
        simp only [ModelDef.create, hv]
        split
        · intro h
          exact Option.noConfusion h
        · split
          · intro h
            exact Option.noConfusion h
          · intro _
            rfl
    | some e =>
        simp only [ModelDef.create, hv]
        intro h
        exact Option.noConfusion h

/-- Witness for C10: a successful create on the example schema. -/
theorem C10_payload_mutation_witness :
    (usersModel.create dbEx dataW).err = none ∧
    (usersModel.update dbEx (.jstr "1") dataW).dataFinal =
      stampData usersModel (removeKey dataW "id") (.jstr "1") ∧
    (usersModel.create dbEx dataW).dataFinal =
      stampData usersModel dataW (usersModel.create dbEx dataW).seniorId :=
  ⟨rfl, (C10_payload_mutation usersModel dbEx (.jstr "1") dataW).1,
   (C10_payload_mutation usersModel dbEx (.jstr "1") dataW).2.2 rfl⟩

/-! ## C2 -/

/-- C2 (amended): provided every declared relation payload in `data` passes
the link table's validation (which the source runs first, lines 246–254),
`create` with at least one required field missing from the
updateable-field-filtered data throws `InvalidModelInput` carrying exactly
the missing required field names, and issues no statement at all — the
database is untouched. -/
theorem C2_create_missing_required (m : ModelDef) (db : DB) (data : Data)
    (hval : validateRelations m true (m.getRelationsToUpdate data .jnull) = none)
    (hmiss : m.requiredFields.filter
        (fun f => !((m.getValidFields data).map (·.1)).contains f) ≠ []) :
    (m.create db data).err =
      some (.invalidModelInput (m.requiredFields.filter
        (fun f => !((m.getValidFields data).map (·.1)).contains f))) ∧
    (m.create db data).trace = [] ∧
    (m.create db data).db = db := by
  have hlen : 0 < (m.requiredFields.filter
      (fun f => !((m.getValidFields data).map (·.1)).contains f)).length :=
    List.length_pos.mpr hmiss
  refine ⟨?_, ?_, ?_⟩ <;>
    (simp only [ModelDef.create, hval]; rw [if_pos hlen])

/-- Witness for C2: the empty payload on the example schema misses `name`. -/
theorem C2_create_missing_required_witness :
    (usersModel.create dbEx []).err = some (.invalidModelInput ["name"]) ∧
    (usersModel.create dbEx []).trace = [] :=
  ⟨(C2_create_missing_required usersModel dbEx [] rfl (by decide)).1,
   (C2_create_missing_required usersModel dbEx [] rfl (by decide)).2.1⟩

/-- C2 counterexample: with an invalid relation payload *and* a missing
required field, `create` throws the relation-validation error — not
`InvalidModelInput` — because relation validation runs before the
required-field check. -/
theorem C2_relation_error_counterexample :
    usersModel.requiredFields.filter
        (fun f => !((usersModel.getValidFields dataC2x).map (·.1)).contains f) = ["name"] ∧
    (usersModel.create dbEx dataC2x).err = some (.relationValidation "user_addresses") ∧
    (usersModel.create dbEx dataC2x).err ≠ some (.invalidModelInput ["name"]) := by
  refine ⟨by decide, rfl, by decide⟩

/-! ## C3 -/

/-- C3: evaluation at the failing input.  `Model.update` passes `data` — not
the computed `fieldsToUpdate` — to the statement builder (source line 209),
so the UPDATE's field map contains the relation payload key and the
non-updateable `created_at`, while the updateable-field subset is just
`name`. -/
theorem C3_update_statement_unfiltered :
    (usersModel.update dbEx (.jstr "1") dataC3).trace.head? =
      some (.updateQ "users" (.jstr "1")
        [("name", .scalar (.jstr "Bea")),
         ("user_addresses", .rows [[("city", .jstr "NY"), ("id_user", .jstr "1")]]),
         ("created_at", .scalar (.jstr "2021-01-01"))]) ∧
    (usersModel.getValidFields (removeKey dataC3 "id")).map (·.1) = ["name"] :=
  ⟨rfl, by decide⟩

/-! ## C7 -/

/-- C7: evaluation at the failing input.  A payload key naming an undeclared
relation is silently dropped by `getRelationsToUpdate`'s filter: `create`
raises no error (the `Relation ... not found` throw in the source is
unreachable), completes the INSERT, issues no statement mentioning the key,
and leaves its payload rows unstamped. -/
theorem C7_unknown_relation_ignored :
    (usersModel.create dbEx dataC7).err = none ∧
    (usersModel.create dbEx dataC7).trace =
      [.insertQ "users" [("name", .scalar (.jstr "Ann"))], .getLastQ "users",
       .getQ "users" (.jnum 2)] ∧
    (usersModel.create dbEx dataC7).db.link = dbEx.link ∧
    (usersModel.create dbEx dataC7).dataFinal = dataC7 :=
  ⟨rfl, rfl, rfl, rfl⟩

/-! ## C4 -/

theorem linkRows_setLink (db : DB) (t : String) (rows : List Row) (t' : String) :
    (db.setLink t rows).linkRows t' = if t = t' then rows else db.linkRows t' := by
  unfold DB.setLink DB.linkRows
  rw [lookupKey_setKeyList]
  by_cases h : t = t' <;> simp [h]

theorem linkRows_insertRelationRow (db : DB) (t : String) (row : Row) (t' : String) :
    (db.insertRelationRow t row).linkRows t' =
      if t = t' then db.linkRows t ++ [row] else db.linkRows t' := by
  unfold DB.insertRelationRow
  rw [linkRows_setLink]

theorem linkRows_deleteRelation (db : DB) (t fk : String) (id : JVal) (t' : String) :
    (db.deleteRelation t fk id).linkRows t' =
      if t = t' then
        (db.linkRows t).filter (fun r => !idMatches ((lookupKey r fk).getD .jnull) id)
      else db.linkRows t' := by
  unfold DB.deleteRelation
  rw [linkRows_setLink]

theorem linkRows_foldl_insert (t : String) (rows : List Row) (db : DB) (t' : String) :
    ((rows.foldl (fun d r => d.insertRelationRow t r) db).linkRows t') =
      if t = t' then db.linkRows t' ++ rows else db.linkRows t' := by
  induction rows generalizing db with
  | nil => by_cases h : t = t' <;> simp [h]
  | cons r rs ih =>
      simp only [List.foldl_cons, ih, linkRows_insertRelationRow]
      by_cases h : t = t' <;> simp [h]

theorem applyRelationWrites_frame (m : ModelDef) (id : JVal)
    (l : List (String × List Row)) (db : DB) (t : String) (ht : t ∉ l.map (·.1)) :
    ((applyRelationWrites m id db l).2).linkRows t = db.linkRows t := by
  induction l generalizing db with
  | nil => rfl
  | cons hd tl ih =>
      obtain ⟨name, rows⟩ := hd
      simp only [List.map_cons, List.mem_cons] at ht
      push_neg at ht
      simp only [applyRelationWrites]
      rw [ih _ ht.2, linkRows_foldl_insert, linkRows_deleteRelation]
      simp [Ne.symm ht.1]

theorem applyRelationWrites_linkRows (m : ModelDef) (id : JVal)
    (l : List (String × List Row)) (db : DB) (t : String) (rows : List Row)
    (hmem : (t, rows) ∈ l) (hnd : (l.map (·.1)).Nodup) :
    ((applyRelationWrites m id db l).2).linkRows t =
      (db.linkRows t).filter
        (fun r => !idMatches ((lookupKey r ("id_" ++ m.name)).getD .jnull) id) ++ rows := by
  induction l generalizing db with
  | nil => cases hmem
  | cons hd tl ih =>
      obtain ⟨name, rrows⟩ := hd
      simp only [List.map_cons, List.nodup_cons] at hnd
      rcases List.mem_cons.mp hmem with heq | htl
      · injection heq with h1 h2
        subst h1
        subst h2
        simp only [applyRelationWrites]
        rw [applyRelationWrites_frame _ _ _ _ _ hnd.1, linkRows_foldl_insert,
          linkRows_deleteRelation]
        simp
      · have hne : name ≠ t := by
          intro h
          subst h
          exact hnd.1 (List.mem_map.mpr ⟨(name, rows), htl, rfl⟩)
        simp only [applyRelationWrites]
        rw [ih _ htl hnd.2, linkRows_foldl_insert, linkRows_deleteRelation]
        simp [hne]

theorem filter_stamped (fk : String) (id : JVal) (hid : idMatches id id = true)
    (rows : List Row) :
    (rows.map (fun r => setKeyList r fk id)).filter
      (fun r => idMatches ((lookupKey r fk).getD .jnull) id) =
      rows.map (fun r => setKeyList r fk id) := by
  apply List.filter_eq_self.mpr
  intro r hr
  rcases List.mem_map.mp hr with ⟨r0, _, rfl⟩
  rw [lookupKey_setKeyList]
  simp [hid]

theorem filter_not_filter (p : Row → Bool) (l : List Row) :
    (l.filter (fun r => !p r)).filter p = [] := by
  induction l with
  | nil => rfl
  | cons r rs ih => by_cases h : p r <;> simp [List.filter_cons, h, ih]

theorem keys_signRelations (m : ModelDef) (l : List (String × List Row)) (id : JVal) :
    (m.signRelationsDataWithSeniorId l id).map (·.1) = l.map (·.1) := by
  simp [ModelDef.signRelationsDataWithSeniorId, List.map_map, Function.comp]

theorem keys_relFilter_sublist (data : Data) (P : String → Bool) :
    ((data.filterMap
        (fun kv => if P kv.1 then some (kv.1, dvalRows kv.2) else none)).map (·.1)).Sublist
      (data.map (·.1)) := by
  induction data with
  | nil => simp
  | cons kv tl ih =>
      by_cases h : P kv.1
      · simpa [List.filterMap_cons, h] using ih.cons₂ kv.1
      · simpa [List.filterMap_cons, h] using ih.cons kv.1

theorem keys_removeKey_sublist {β : Type} (l : List (String × β)) (k : String) :
    ((removeKey l k).map (·.1)).Sublist (l.map (·.1)) := by
  unfold removeKey
  exact (List.filter_sublist l).map (·.1)

theorem keys_getRelationsToUpdate_sublist (m : ModelDef) (data : Data) (id : JVal) :
    ((m.getRelationsToUpdate data id).map (·.1)).Sublist (data.map (·.1)) := by
  unfold ModelDef.getRelationsToUpdate
  rw [keys_signRelations]
  exact keys_relFilter_sublist data _

theorem mem_getRelationsToUpdate (m : ModelDef) (data : Data) (id : JVal)
    (t : String) (rows : List Row)
    (hmem : (t, DVal.rows rows) ∈ data)
    (hdecl : (m.relations.map (·.tableName)).contains t = true) :
    (t, rows.map (fun r => setKeyList r ("id_" ++ m.name) id)) ∈
      m.getRelationsToUpdate data id := by
  unfold ModelDef.getRelationsToUpdate ModelDef.signRelationsDataWithSeniorId
  apply List.mem_map.mpr
  refine ⟨(t, rows), ?_, rfl⟩
  apply List.mem_filterMap.mpr
  exact ⟨(t, DVal.rows rows), hmem, by simp only [hdecl, if_true, dvalRows]⟩

/-- C4: for every declared relation name present in the update payload,
`update(id, data)` fully replaces the relation — it deletes the link rows
whose senior foreign key equals `id` and inserts exactly the new rows stamped
with the senior id — so the relation collection a subsequent `get(id)` shows
is exactly the new (stamped) row set, also when it is a strict subset of the
old set or empty. -/
theorem C4_relation_full_replace (m : ModelDef) (db : DB) (id : JVal) (data : Data)
    (rel : RelationDef) (newRows : List Row)
    (hmem : (rel.tableName, DVal.rows newRows) ∈ data)
    (hdecl : rel ∈ m.relations)
    (hnotid : rel.tableName ≠ "id")
    (hkeys : (data.map (·.1)).Nodup)
    (hid : idMatches id id = true)
    (hval : validateRelations m false
        (m.getRelationsToUpdate (removeKey data "id") id) = none) :
    getRelationView (m.update db id data).db m rel.tableName id =
      newRows.map (fun r => setKeyList r ("id_" ++ m.name) id) := by
  have hmem1 : (rel.tableName, DVal.rows newRows) ∈ removeKey data "id" :=
    List.mem_filter.mpr ⟨hmem, by simp [hnotid]⟩
  have hcont : (m.relations.map (·.tableName)).contains rel.tableName = true :=
    List.elem_eq_true_of_mem (List.mem_map.mpr ⟨rel, hdecl, rfl⟩)
  have hmem2 := mem_getRelationsToUpdate m (removeKey data "id") id rel.tableName newRows
    hmem1 hcont
  have hsub : ((m.getRelationsToUpdate (removeKey data "id") id).map (·.1)).Sublist
      (data.map (·.1)) :=
    (keys_getRelationsToUpdate_sublist m (removeKey data "id") id).trans
      (keys_removeKey_sublist data "id")
  have hnd : ((m.getRelationsToUpdate (removeKey data "id") id).map (·.1)).Nodup :=
    hkeys.sublist hsub
  simp only [ModelDef.update, hval]
  unfold getRelationView
  rw [applyRelationWrites_linkRows m id _ _ _ _ hmem2 hnd]
  rw [List.filter_append, filter_not_filter, filter_stamped _ _ hid, List.nil_append]

/-- Witness for C4: updating the example user's addresses replaces the
pre-existing link row with exactly the new stamped row set. -/
theorem C4_relation_full_replace_witness :
    getRelationView (usersModel.update dbEx (.jstr "1") dataW).db usersModel
        "user_addresses" (.jstr "1") =
      [[("city", .jstr "NY"), ("id_user", .jstr "1")]] :=
  C4_relation_full_replace usersModel dbEx (.jstr "1") dataW addrRel
    [[("city", .jstr "NY")]]
    (List.mem_cons_of_mem _ (List.mem_cons_self _ _))
    (List.mem_cons_self _ _)
    (by decide) (by decide) rfl rfl

/-! ## C1 -/

theorem rowGet_nil (i : Nat) (k : String) : rowGet [] i k = none := rfl

theorem rowGet_cons_zero (x : JVal) (l : List JVal) (k : String) :
    rowGet (x :: l) 0 k = objGet x k := rfl

theorem rowGet_cons_succ (x : JVal) (l : List JVal) (n : Nat) (k : String) :
    rowGet (x :: l) (n + 1) k = rowGet l n k := rfl

theorem jsOrObj_jnull : jsOrObj .jnull = .jobj [] := rfl

theorem jsOrObj_jobj (fs : List (String × JVal)) : jsOrObj (.jobj fs) = .jobj fs := rfl

theorem objGet_lodashSet_single (fs : List (String × JVal)) (k : String) (v : JVal)
    (q : String) :
    objGet (lodashSet (.jobj fs) [k] v) q = if k = q then some v else lookupKey fs q := by
  simp [lodashSet, setKeyTop, objGet, lookupKey_setKeyList]

theorem isObj_lodashSet (fs : List (String × JVal)) (p : List String) (v : JVal) :
    (lodashSet (.jobj fs) p v).isObj = true := by
  cases p with
  | nil => rfl
  | cons k rest => cases rest with
    | nil => rfl
    | cons k2 r2 => rfl

theorem applyColumn_isObj (key : String) (pv res : List JVal)
    (hobj : ∀ r ∈ res, r.isObj = true) :
    ∀ r ∈ applyColumn key pv res, r.isObj = true := by
  induction pv generalizing res with
  | nil => simpa [applyColumn] using hobj
  | cons e pv ih =>
      cases res with
      | nil =>
          intro r hr
          simp only [applyColumn, List.mem_cons] at hr
          rcases hr with rfl | hr
          · exact isObj_lodashSet [] _ _
          · exact ih [] (by simp) r hr
      | cons r0 res =>
          intro r hr
          simp only [applyColumn, List.mem_cons] at hr
          rcases hr with rfl | hr
          · have h0 : r0.isObj = true := hobj r0 (List.mem_cons_self _ _)
            cases r0 <;> simp [JVal.isObj] at h0
            exact isObj_lodashSet _ _ _
          · exact ih res (fun r hr => hobj r (List.mem_cons_of_mem _ hr)) r hr

theorem applyColumn_rowGet_some (key : String) (hk : jsSplit key '.' = [key])
    (pv res : List JVal) (hobj : ∀ r ∈ res, r.isObj = true)
    (i : Nat) (e : JVal) (hget : pv.get? i = some e) :
    rowGet (applyColumn key pv res) i key = some (jsOrNull e) := by
  induction pv generalizing res i with
  | nil => cases hget
  | cons e0 pv ih =>
      cases i with
      | zero =>
          injection hget with he
          subst he
          cases res with
          | nil =>
              rw [applyColumn, rowGet_cons_zero, jsOrObj_jnull, hk,
                objGet_lodashSet_single, if_pos rfl]
          | cons r0 res =>
              have h0 : r0.isObj = true := hobj r0 (List.mem_cons_self _ _)
              cases r0 <;> simp [JVal.isObj] at h0
              rw [applyColumn, rowGet_cons_zero, jsOrObj_jobj, hk,
                objGet_lodashSet_single, if_pos rfl]
      | succ n =>
          cases res with
          | nil =>
              rw [applyColumn, rowGet_cons_succ]
              exact ih [] (by simp) n hget
          | cons r0 res =>
              rw [applyColumn, rowGet_cons_succ]
              exact ih res (fun r hr => hobj r (List.mem_cons_of_mem _ hr)) n hget

theorem applyColumn_rowGet_none (key : String) (pv res : List JVal)
    (i : Nat) (hget : pv.get? i = none) :
    rowGet (applyColumn key pv res) i key = rowGet res i key := by
  induction pv generalizing res i with
  | nil => rfl
  | cons e0 pv ih =>
      cases i with
      | zero => cases hget
      | succ n =>
          cases res with
          | nil =>
              rw [applyColumn, rowGet_cons_succ, ih [] n hget, rowGet_nil, rowGet_nil]
          | cons r0 res =>
              rw [applyColumn, rowGet_cons_succ, ih res n hget, rowGet_cons_succ]

theorem applyColumn_rowGet_other (key : String) (hk : jsSplit key '.' = [key])
    (q : String) (hq : q ≠ key) (pv res : List JVal)
    (hobj : ∀ r ∈ res, r.isObj = true) (i : Nat) :
    rowGet (applyColumn key pv res) i q = rowGet res i q := by
  induction pv generalizing res i with
  | nil => rfl
  | cons e0 pv ih =>
      cases i with
      | zero =>
          cases res with
          | nil =>
              rw [applyColumn, rowGet_cons_zero, jsOrObj_jnull, hk,
                objGet_lodashSet_single, if_neg (fun h => hq h.symm), rowGet_nil]
              rfl
          | cons r0 res =>
              have h0 : r0.isObj = true := hobj r0 (List.mem_cons_self _ _)
              cases r0 <;> simp [JVal.isObj] at h0
              rw [applyColumn, rowGet_cons_zero, jsOrObj_jobj, hk,
                objGet_lodashSet_single, if_neg (fun h => hq h.symm), rowGet_cons_zero]
              rfl
      | succ n =>
          cases res with
          | nil =>
              rw [applyColumn, rowGet_cons_succ, ih [] (by simp) n, rowGet_nil, rowGet_nil]
          | cons r0 res =>
              rw [applyColumn, rowGet_cons_succ,
                ih res (fun r hr => hobj r (List.mem_cons_of_mem _ hr)) n, rowGet_cons_succ]

theorem parseEntries_cons (key : String) (value : JVal) (rest : List (String × JVal))
    (res : List JVal) :
    parseEntries ((key, value) :: rest) res =
      parseEntries rest (applyColumn key
        (match value with
         | .jobj fs => parseRelationCollection (.jobj fs)
         | .jarr es => parseRelationCollection (.jarr es)
         | v => (jsSplit (jsCoerceStr v) ',').map .jstr) res) := by
  cases value <;> rfl

theorem parseEntries_rowGet_other (q : String) (entries : List (String × JVal)) :
    ∀ res : List JVal,
      (∀ p ∈ entries, jsSplit p.1 '.' = [p.1] ∧ p.1 ≠ q) →
      (∀ r ∈ res, r.isObj = true) →
      ∀ i, rowGet (parseEntries entries res) i q = rowGet res i q := by
  induction entries with
  | nil => intro res _ _ i; rfl
  | cons hd tl ih =>
      obtain ⟨key, value⟩ := hd
      intro res hks hobj i
      rw [parseEntries_cons]
      rw [ih _ (fun p hp => hks p (List.mem_cons_of_mem _ hp))
        (applyColumn_isObj _ _ _ hobj)]
      exact applyColumn_rowGet_other key (hks (key, value) (List.mem_cons_self _ _)).1 q
        (Ne.symm (hks (key, value) (List.mem_cons_self _ _)).2) _ res hobj i

theorem parseEntries_cons_str (key s : String) (rest : List (String × JVal))
    (res : List JVal) :
    parseEntries ((key, .jstr s) :: rest) res =
      parseEntries rest (applyColumn key ((jsSplit s ',').map .jstr) res) := rfl

theorem parseEntries_rowGet (k s : String) (entries : List (String × JVal)) :
    ∀ res : List JVal,
      (k, JVal.jstr s) ∈ entries →
      (entries.map (·.1)).Nodup →
      (∀ p ∈ entries, jsSplit p.1 '.' = [p.1]) →
      (∀ r ∈ res, r.isObj = true) →
      (∀ j, rowGet res j k = none) →
      ∀ i, rowGet (parseEntries entries res) i k =
        ((jsSplit s ',').get? i).map (fun seg => jsOrNull (.jstr seg)) := by
  induction entries with
  | nil =>
      intro res hmem
      cases hmem
  | cons hd tl ih =>
      obtain ⟨key, value⟩ := hd
      intro res hmem hnd hdot hobj hnone i
      simp only [List.map_cons, List.nodup_cons] at hnd
      rcases List.mem_cons.mp hmem with heq | htl
      · injection heq with h1 h2
        subst h1
        subst h2
        rw [parseEntries_cons_str]
        rw [parseEntries_rowGet_other k tl _
          (fun p hp => ⟨hdot p (List.mem_cons_of_mem _ hp),
            fun hpk => hnd.1 (List.mem_map.mpr ⟨p, hp, hpk⟩)⟩)
          (applyColumn_isObj _ _ _ hobj)]
        cases hg : (jsSplit s ',').get? i with
        | some seg =>
            have hg' : ((jsSplit s ',').map JVal.jstr).get? i = some (JVal.jstr seg) := by
              rw [List.get?_map, hg]
              rfl
            rw [applyColumn_rowGet_some k (hdot (k, .jstr s) (List.mem_cons_self _ _)) _ res
              hobj i _ hg']
            rfl
        | none =>
            have hg' : ((jsSplit s ',').map JVal.jstr).get? i = none := by
              rw [List.get?_map, hg]
              rfl
            rw [applyColumn_rowGet_none k _ res i hg', hnone i]
            rfl
      · have hkk : key ≠ k := fun h => hnd.1 (by
          rw [h]
          exact List.mem_map.mpr ⟨(k, JVal.jstr s), htl, rfl⟩)
        rw [parseEntries_cons]
        refine ih _ htl hnd.2 (fun p hp => hdot p (List.mem_cons_of_mem _ hp))
          (applyColumn_isObj _ _ _ hobj) ?_ i
        intro j
        rw [applyColumn_rowGet_other key (hdot (key, value) (List.mem_cons_self _ _)) k
          (Ne.symm hkk) _ res hobj j]
        exact hnone j

/-- C1 (amended): the Row Mapper inverts comma-joined aggregate columns by
index.  Mapping a flattened row with relation sub-columns
`{"addr.city":"NY,LA", "addr.zip":"10001,90001"}` yields
`addr = [{city:"NY", zip:"10001"}, {city:"LA", zip:"90001"}]`; and for every
relation sub-object with distinct, dot-free column names, the i-th output
row's value for a column is the i-th comma-split segment of that column's
aggregated string (an empty segment becoming `null`).  When that segment is
missing — the column split into fewer segments than another — the column is
*absent* from that output row rather than set to `null` (both sides of the
stated equation are then `none`; see the counterexample). -/
theorem C1_row_mapper_unflatten :
    objGet (addrModel.rawSQLToModel
        [("addr.city", .jstr "NY,LA"), ("addr.zip", .jstr "10001,90001")]) "addr" =
      some (.jarr [.jobj [("city", .jstr "NY"), ("zip", .jstr "10001")],
                   .jobj [("city", .jstr "LA"), ("zip", .jstr "90001")]]) ∧
    ∀ cols : List (String × String),
      (cols.map (·.1)).Nodup →
      (∀ p ∈ cols, jsSplit p.1 '.' = [p.1]) →
      ∀ k s, (k, s) ∈ cols → ∀ i,
        rowGet (parseRelationCollection
            (.jobj (cols.map (fun p => (p.1, JVal.jstr p.2))))) i k =
          ((jsSplit s ',').get? i).map (fun seg => jsOrNull (.jstr seg)) := by
  constructor
  · rfl
  · intro cols hnd hdot k s hmem i
    have hfs : ((cols.map (fun p => (p.1, JVal.jstr p.2))).map (·.1)) = cols.map (·.1) := by
      rw [List.map_map]
      rfl
    show rowGet (parseEntries (cols.map (fun p => (p.1, JVal.jstr p.2))) []) i k = _
    refine parseEntries_rowGet k s _ [] ?_ ?_ ?_ ?_ ?_ i
    · exact List.mem_map.mpr ⟨(k, s), hmem, rfl⟩
    · rw [hfs]
      exact hnd
    · intro p hp
      rcases List.mem_map.mp hp with ⟨p0, hp0, rfl⟩
      exact hdot p0 hp0
    · intro r hr
      exact absurd hr (List.not_mem_nil r)
    · intro j
      rfl

/-- Witness for C1 at the round-trip example's columns, reading row 1's
`zip`. -/
theorem C1_row_mapper_unflatten_witness :
    rowGet (parseRelationCollection (.jobj [("city", JVal.jstr "NY,LA"),
        ("zip", JVal.jstr "10001,90001")])) 1 "zip" = some (.jstr "90001") :=
  C1_row_mapper_unflatten.2 [("city", "NY,LA"), ("zip", "10001,90001")]
    (by decide) (by decide) "zip" "10001,90001" (by decide) 1

/-- C1 counterexample: with `{a:"x,y", b:"p"}` the second output row has no
`b` key at all — reading it gives `none` (JS `undefined`), not the `null` the
claim promises for a missing segment. -/
theorem C1_missing_segment_counterexample :
    parseRelationCollection (.jobj [("a", .jstr "x,y"), ("b", .jstr "p")]) =
      [.jobj [("a", .jstr "x"), ("b", .jstr "p")], .jobj [("a", .jstr "y")]] ∧
    rowGet (parseRelationCollection (.jobj [("a", .jstr "x,y"), ("b", .jstr "p")])) 1 "b" =
      none ∧
    rowGet (parseRelationCollection (.jobj [("a", .jstr "x,y"), ("b", .jstr "p")])) 1 "b" ≠
      some .jnull := by
  refine ⟨rfl, rfl, ?_⟩
  intro h
  rw [show rowGet (parseRelationCollection
      (.jobj [("a", .jstr "x,y"), ("b", .jstr "p")])) 1 "b" = none from rfl] at h
  exact Option.noConfusion h
